import Mathlib

/-!
Shallow embedding of the mock Lightning node simulator
(`src/services/lightningService.ts`, class `LightningService`).

Millisatoshi amounts and counters are JavaScript numbers in the source; they
are embedded as `Int`.  `Math.floor(x * 0.99)`, `Math.floor(x * 0.001)` and
`Math.floor(x * r / 1000000)` are embedded as exact rational floors
(`Int.fdiv` of the integer products), matching the formulas the source
comments and the specification state.  The JavaScript `Map` is embedded as an
insertion-ordered association list with `Map.get` / `Map.set` / `Map.delete`
semantics.  Randomness (fresh channel ids, funding txids, preimages) and the
current time are passed in as explicit parameters.  The third-party `bolt11`
decoder is an abstract parameter `decode : String → Except String
DecodedInvoice`.  The `setTimeout` callback in `closeChannel` is embedded as
the separate step `closeChannelComplete`.
-/

namespace LdkMcp

/-- `ChannelState` enum from `src/types/lightning.ts`. -/
inductive ChannelState where
  | Pending
  | Open
  | Closing
  | Closed
  | ForceClosing
deriving DecidableEq, Repr

/-- `PaymentStatus` enum from `src/types/lightning.ts`. -/
inductive PaymentStatus where
  | Pending
  | Succeeded
  | Failed
deriving DecidableEq, Repr

/-- `Channel` interface from `src/types/lightning.ts`. -/
structure Channel where
  channelId : String
  shortChannelId : String
  remotePubkey : String
  fundingTxid : String
  capacityMsat : Int
  localBalanceMsat : Int
  remoteBalanceMsat : Int
  state : ChannelState
  isUsable : Bool
deriving DecidableEq, Repr

/-- `Payment` interface from `src/types/lightning.ts`.  Optional fields are
`Option`; `paymentHash` is `Option String` because the source reads the
`payment_hash` tag with `?.data`, which may be `undefined`. -/
structure Payment where
  paymentHash : Option String
  paymentPreimage : Option String
  amountMsat : Int
  status : PaymentStatus
  timestamp : Int
  description : Option String
  bolt11 : Option String
  feeMsat : Option Int
deriving DecidableEq, Repr

/-- `NodeInfo` interface from `src/types/lightning.ts`.  The source field
`alias` is a Lean keyword and is embedded as `aliasName`. -/
structure NodeInfo where
  nodeId : String
  aliasName : String
  numChannels : Int
  numUsableChannels : Int
  numPeers : Int
  blockHeight : Int
  syncedToChain : Bool
  version : String
deriving DecidableEq, Repr

/-- `FeeEstimate` interface from `src/types/lightning.ts`. -/
structure FeeEstimate where
  baseFee : Int
  proportionalMillionths : Int
  estimatedFeeMsat : Int
  estimatedDurationSeconds : Int
deriving DecidableEq, Repr

/-! ### JavaScript `Map` as an insertion-ordered association list -/

/-- `Map.get`: the value at the first (unique) occurrence of the key. -/
def mapGet {α β : Type} [DecidableEq α] : List (α × β) → α → Option β
  | [], _ => none
  | (k0, v0) :: rest, k => if k0 = k then some v0 else mapGet rest k

/-- `Map.set`: overwrite in place when the key is present, append otherwise. -/
def mapSet {α β : Type} [DecidableEq α] : List (α × β) → α → β → List (α × β)
  | [], k, v => [(k, v)]
  | (k0, v0) :: rest, k, v =>
    if k0 = k then (k0, v) :: rest else (k0, v0) :: mapSet rest k v

/-- `Map.delete`: remove the first (unique) occurrence of the key. -/
def mapDelete {α β : Type} [DecidableEq α] : List (α × β) → α → List (α × β)
  | [], _ => []
  | (k0, v0) :: rest, k => if k0 = k then rest else (k0, v0) :: mapDelete rest k

/-- `Array.from(map.values())`: the values in insertion order. -/
def mapValues {α β : Type} (m : List (α × β)) : List β := m.map Prod.snd

/-! ### Ledger state -/

/-- The mutable fields of `LightningService`: the `channels` and `payments`
registries and `nodeInfo` (whose channel counters are mutated). -/
structure LedgerState where
  channels : List (String × Channel)
  payments : List (Option String × Payment)
  nodeInfo : NodeInfo
deriving DecidableEq, Repr

/-- The state right after the `LightningService` constructor ran: empty
registries and the mock node info initialised in the constructor. -/
def initialState (nodeId : String) : LedgerState :=
  { channels := []
    payments := []
    nodeInfo :=
      { nodeId := nodeId
        aliasName := "LDK MCP Node"
        numChannels := 0
        numUsableChannels := 0
        numPeers := 0
        blockHeight := 800000
        syncedToChain := true
        version := "0.0.124" } }

/-! ### Operations of `LightningService` -/

/-- The random identifiers `createChannel` draws: `crypto.randomBytes(32)`
hex strings for the channel id and funding txid, and the synthetic
short-channel id. -/
structure ChannelIds where
  channelId : String
  shortChannelId : String
  fundingTxid : String

/-- `LightningService.createChannel`: build the channel record with
`localBalanceMsat = capacityMsat - pushMsat`, `remoteBalanceMsat = pushMsat`,
state `Open`, `isUsable = true`; insert it into the registry; increment both
channel counters; return it. -/
def createChannel (ids : ChannelIds) (remotePubkey : String)
    (capacityMsat pushMsat : Int) (s : LedgerState) : Channel × LedgerState :=
  let channel : Channel :=
    { channelId := ids.channelId
      shortChannelId := ids.shortChannelId
      remotePubkey := remotePubkey
      fundingTxid := ids.fundingTxid
      capacityMsat := capacityMsat
      localBalanceMsat := capacityMsat - pushMsat
      remoteBalanceMsat := pushMsat
      state := ChannelState.Open
      isUsable := true }
  (channel,
    { s with
      channels := mapSet s.channels ids.channelId channel
      nodeInfo :=
        { s.nodeInfo with
          numChannels := s.nodeInfo.numChannels + 1
          numUsableChannels := s.nodeInfo.numUsableChannels + 1 } })

/-- `LightningService.closeChannel`, synchronous part: throw
`Channel not found` when the id is absent; otherwise set the channel's state
to `Closing`, clear `isUsable`, decrement `numUsableChannels` and return
`true`.  The `setTimeout` body is `closeChannelComplete` below. -/
def closeChannel (channelId : String) (s : LedgerState) :
    Except String Bool × LedgerState :=
  match mapGet s.channels channelId with
  | none => (Except.error "Channel not found", s)
  | some channel =>
    let channel2 := { channel with state := ChannelState.Closing, isUsable := false }
    (Except.ok true,
      { s with
        channels := mapSet s.channels channelId channel2
        nodeInfo :=
          { s.nodeInfo with
            numUsableChannels := s.nodeInfo.numUsableChannels - 1 } })

/-- The `setTimeout` callback scheduled by `closeChannel` (fires after a fixed
5000 ms delay): set the captured channel's state to `Closed`, delete it from
the registry, decrement `numChannels`.  The `Closed` assignment mutates the
object just before its deletion, so the registry never exposes it; the net
effect on the state is the deletion and the decrement. -/
def closeChannelComplete (channelId : String) (s : LedgerState) : LedgerState :=
  { s with
    channels := mapDelete s.channels channelId
    nodeInfo := { s.nodeInfo with numChannels := s.nodeInfo.numChannels - 1 } }

/-- The fields `payInvoice` reads from a `bolt11.decode` result: the
`payment_hash` and `description` tags (absent tags are `none`) and the
already-parsed `millisatoshis` amount (`parseInt(decoded.millisatoshis ||
'0')` is `millisatoshis.getD 0`). -/
structure DecodedInvoice where
  paymentHash : Option String
  millisatoshis : Option Int
  description : Option String

/-- `LightningService.payInvoice`: decode the invoice (abstract `decode`
parameter standing for `bolt11.decode`); on failure rethrow
`Failed to pay invoice: ...` leaving the state untouched; on success build a
`Succeeded` payment whose hash is the decoded invoice's own `payment_hash`
tag, whose preimage is a fresh random value, and whose fee is
`Math.floor(amountMsat * 0.001)`, store it keyed by that hash and return
it. -/
def payInvoice (decode : String → Except String DecodedInvoice)
    (freshPreimage : String) (now : Int) (bolt11Invoice : String)
    (s : LedgerState) : Except String Payment × LedgerState :=
  match decode bolt11Invoice with
  | Except.error e => (Except.error ("Failed to pay invoice: " ++ e), s)
  | Except.ok decoded =>
    let amountMsat := decoded.millisatoshis.getD 0
    let payment : Payment :=
      { paymentHash := decoded.paymentHash
        amountMsat := amountMsat
        status := PaymentStatus.Succeeded
        timestamp := now
        description := decoded.description
        bolt11 := some bolt11Invoice
        feeMsat := some (Int.fdiv (amountMsat * 1) 1000)
        paymentPreimage := some freshPreimage }
    (Except.ok payment,
      { s with payments := mapSet s.payments decoded.paymentHash payment })

/-- `LightningService.getChannelStatus` (the `ListChannels` read):
`Array.from(this.channels.values())`. -/
def getChannelStatus (s : LedgerState) : List Channel := mapValues s.channels

/-- `LightningService.getBalance`: one pass over the channel values; channels
in `Open` state contribute their local balance to `totalMsat` and, when also
usable, `Math.floor(localBalanceMsat * 0.99)` to `spendableMsat`. -/
def getBalance (s : LedgerState) : Int × Int :=
  (mapValues s.channels).foldl
    (fun acc channel =>
      if channel.state = ChannelState.Open then
        (acc.1 + channel.localBalanceMsat,
         if channel.isUsable then
           acc.2 + Int.fdiv (channel.localBalanceMsat * 99) 100
         else acc.2)
      else acc)
    (0, 0)

/-- `LightningService.listPayments`: the payment values sorted with the
stable comparator `(a, b) => b.timestamp - a.timestamp`, i.e. by timestamp
descending. -/
def listPayments (s : LedgerState) : List Payment :=
  (mapValues s.payments).mergeSort (fun a b => decide (b.timestamp ≤ a.timestamp))

/-- `LightningService.estimateFee`: fixed base fee 1000 msat, proportional
rate 1000 ppm, `estimatedFeeMsat = baseFee + Math.floor(amountMsat *
proportionalMillionths / 1000000)`, fixed 60 second duration. -/
def estimateFee (amountMsat : Int) : FeeEstimate :=
  let baseFee : Int := 1000
  let proportionalMillionths : Int := 1000
  let estimatedFeeMsat :=
    baseFee + Int.fdiv (amountMsat * proportionalMillionths) 1000000
  { baseFee := baseFee
    proportionalMillionths := proportionalMillionths
    estimatedFeeMsat := estimatedFeeMsat
    estimatedDurationSeconds := 60 }

/-! ### Backup / restore -/

/-- A value fed to the `new Map(x)` constructor after JSON decoding: either a
valid list of key-value entries, or a value that is not iterable, on which
the constructor throws with the given message. -/
inductive MapInit (α : Type) where
  | valid : List α → MapInit α
  | notIterable : String → MapInit α
deriving DecidableEq, Repr

/-- `new Map(x)`: build a map from an entries list (later duplicates
overwrite in place, as `Map.set` does), or throw when `x` is not iterable. -/
def newMap {α β : Type} [DecidableEq α] :
    MapInit (α × β) → Except String (List (α × β))
  | MapInit.valid entries =>
    Except.ok (entries.foldl (fun m e => mapSet m e.1 e.2) [])
  | MapInit.notIterable msg => Except.error msg

/-- The structure of a backup blob after base64 decoding and `JSON.parse`
succeeded.  The base64/JSON layer is embedded as the identity on this
structure: `JSON.stringify` followed by `JSON.parse` reproduces the strings,
integers and booleans involved. -/
structure ParsedState where
  nodeInfo : NodeInfo
  channels : MapInit (String × Channel)
  payments : MapInit (Option String × Payment)
  timestamp : Int
deriving DecidableEq, Repr

/-- `LightningService.backupState`: serialize `nodeInfo`, the channel
entries, the payment entries and a timestamp (then base64-encode, embedded
as the identity). -/
def backupState (now : Int) (s : LedgerState) : ParsedState :=
  { nodeInfo := s.nodeInfo
    channels := MapInit.valid s.channels
    payments := MapInit.valid s.payments
    timestamp := now }

/-- `LightningService.restoreState`: `blob` is the outcome of base64 decoding
plus `JSON.parse` (an `error` models their failure).  On success the three
fields are overwritten in source order — `nodeInfo` first, then `channels`,
then `payments` — and a throw from a later `new Map(...)` leaves the earlier
assignments in place. -/
def restoreState (blob : Except String ParsedState) (s : LedgerState) :
    Except String Bool × LedgerState :=
  match blob with
  | Except.error e => (Except.error ("Failed to restore state: " ++ e), s)
  | Except.ok st =>
    let s1 := { s with nodeInfo := st.nodeInfo }
    match newMap st.channels with
    | Except.error e => (Except.error ("Failed to restore state: " ++ e), s1)
    | Except.ok chans =>
      let s2 := { s1 with channels := chans }
      match newMap st.payments with
      | Except.error e => (Except.error ("Failed to restore state: " ++ e), s2)
      | Except.ok pays => (Except.ok true, { s2 with payments := pays })

/-! ### Derived definitions used by the statements -/

/-- The channel-balance invariant: every channel visible through the
`ListChannels` read satisfies `local + remote == capacity`. -/
def BalancedChannels (s : LedgerState) : Prop :=
  ∀ c ∈ getChannelStatus s,
    c.localBalanceMsat + c.remoteBalanceMsat = c.capacityMsat

/-- A state-mutating call on the service, with its random draws and decode
outcomes supplied as data. -/
inductive Op where
  | create : ChannelIds → String → Int → Int → Op
  | close : String → Op
  | closeComplete : String → Op
  | pay : (String → Except String DecodedInvoice) → String → Int → String → Op

/-- The state after one service call. -/
def applyOp : Op → LedgerState → LedgerState
  | Op.create ids rp cap push, s => (createChannel ids rp cap push s).2
  | Op.close cid, s => (closeChannel cid s).2
  | Op.closeComplete cid, s => closeChannelComplete cid s
  | Op.pay dec pre now inv, s => (payInvoice dec pre now inv s).2

/-- The state after a sequence of service calls. -/
def applyOps (ops : List Op) (s : LedgerState) : LedgerState :=
  ops.foldl (fun t op => applyOp op t) s

/-- Sum of local balances over channels in `Open` state (the `totalMsat`
computed by `getBalance`). -/
def openLocalMsat (cs : List Channel) : Int :=
  ((cs.filter (fun c => decide (c.state = ChannelState.Open))).map
    (fun c => c.localBalanceMsat)).sum

/-- Sum of `Math.floor(local * 0.99)` over channels that are in `Open` state
and usable (the `spendableMsat` computed by `getBalance`). -/
def openUsableSpendableMsat (cs : List Channel) : Int :=
  ((cs.filter (fun c => decide (c.state = ChannelState.Open) && c.isUsable)).map
    (fun c => Int.fdiv (c.localBalanceMsat * 99) 100)).sum

/-- Modelled from the spec claim wording: sum of `Math.floor(local * 0.99)`
over every usable channel, regardless of its state.  Kept separate from
`openUsableSpendableMsat` to compare against the code. -/
def usableSpendableSpecMsat (cs : List Channel) : Int :=
  ((cs.filter (fun c => c.isUsable)).map
    (fun c => Int.fdiv (c.localBalanceMsat * 99) 100)).sum

/-! ### Concrete sample states -/

/-- Sample random draws for a `createChannel` call. -/
def exIds : ChannelIds :=
  { channelId := "aa11", shortChannelId := "800000x1x0", fundingTxid := "bb22" }

/-- A sample open channel with capacity 1,000,000 msat and push 100,000. -/
def exChannel : Channel :=
  { channelId := "aa11"
    shortChannelId := "800000x1x0"
    remotePubkey := "02peer"
    fundingTxid := "bb22"
    capacityMsat := 1000000
    localBalanceMsat := 900000
    remoteBalanceMsat := 100000
    state := ChannelState.Open
    isUsable := true }

/-- A sample succeeded payment. -/
def exPayment : Payment :=
  { paymentHash := some "h1"
    paymentPreimage := some "p1"
    amountMsat := 42000
    status := PaymentStatus.Succeeded
    timestamp := 7
    description := none
    bolt11 := some "lnbc1sample"
    feeMsat := some 42 }

/-- A sample ledger with two channels and one payment. -/
def exState3 : LedgerState :=
  { channels :=
      [("aa11", exChannel), ("cc33", { exChannel with channelId := "cc33" })]
    payments := [(some "h1", exPayment)]
    nodeInfo := (initialState "02abc").nodeInfo }

/-- A ledger holding a channel that is `Closing` yet still marked usable —
installable through `restoreState`, which performs no validation. -/
def exState4 : LedgerState :=
  { channels :=
      [("aa11",
        { exChannel with
          state := ChannelState.Closing
          localBalanceMsat := 100
          remoteBalanceMsat := 999900 })]
    payments := []
    nodeInfo := (initialState "02abc").nodeInfo }

/-- A ledger with one usable channel and matching counters. -/
def exState9 : LedgerState :=
  { channels := [("aa11", exChannel)]
    payments := []
    nodeInfo :=
      { (initialState "02abc").nodeInfo with
        numChannels := 1
        numUsableChannels := 1 } }

/-- A decode result standing for a successfully parsed bolt11 invoice. -/
def exDecoded : DecodedInvoice :=
  { paymentHash := some "deadbeef"
    millisatoshis := some 250000
    description := some "coffee" }

/-- A decoder that accepts every invoice text, returning `exDecoded`. -/
def exDecodeOk : String → Except String DecodedInvoice :=
  fun _ => Except.ok exDecoded

/-- A decoder that rejects every invoice text, as `bolt11.decode` does on a
malformed string. -/
def exDecodeErr : String → Except String DecodedInvoice :=
  fun _ => Except.error "Invalid checksum"

/-- Replacement node info carried by the corrupt blob of `blob10`. -/
def ni10 : NodeInfo :=
  { nodeId := "02restored"
    aliasName := "restored"
    numChannels := 0
    numUsableChannels := 0
    numPeers := 0
    blockHeight := 0
    syncedToChain := false
    version := "0.0.124" }

/-- The pre-restore ledger for the non-atomicity scenario. -/
def st10 : LedgerState := initialState "02orig"

/-- A blob whose base64 and JSON decoding succeed but whose `channels` entry
is not iterable, so `new Map(state.channels)` throws. -/
def blob10 : Except String ParsedState :=
  Except.ok
    { nodeInfo := ni10
      channels := MapInit.notIterable "TypeError: object is not iterable"
      payments := MapInit.valid []
      timestamp := 0 }

/-! ### Lemmas about the association-list map -/

theorem mapGet_mem {α β : Type} [DecidableEq α] {m : List (α × β)} {k : α}
    {v : β} (h : mapGet m k = some v) : (k, v) ∈ m := by
  induction m with
  | nil => simp [mapGet] at h
  | cons e rest ih =>
    obtain ⟨k0, v0⟩ := e
    by_cases hk : k0 = k
    · subst hk
      simp [mapGet] at h
      subst h
      exact List.mem_cons_self _ _
    · simp [mapGet, hk] at h
      exact List.mem_cons_of_mem _ (ih h)

theorem mem_mapSet {α β : Type} [DecidableEq α] {m : List (α × β)} {k : α}
    {v : β} {e : α × β} (h : e ∈ mapSet m k v) : e ∈ m ∨ e = (k, v) := by
  induction m with
  | nil =>
    simp [mapSet] at h
    exact Or.inr h
  | cons e0 rest ih =>
    obtain ⟨k0, v0⟩ := e0
    by_cases hk : k0 = k
    · subst hk
      simp [mapSet] at h
      rcases h with h | h
      · exact Or.inr (by simp [h])
      · exact Or.inl (List.mem_cons_of_mem _ h)
    · simp [mapSet, hk] at h
      rcases h with h | h
      · exact Or.inl (by simp [h])
      · rcases ih h with h1 | h1
        · exact Or.inl (List.mem_cons_of_mem _ h1)
        · exact Or.inr h1

theorem mapGet_mapSet_self {α β : Type} [DecidableEq α] (m : List (α × β))
    (k : α) (v : β) : mapGet (mapSet m k v) k = some v := by
  induction m with
  | nil => simp [mapSet, mapGet]
  | cons e rest ih =>
    obtain ⟨k0, v0⟩ := e
    by_cases hk : k0 = k
    · simp [mapSet, mapGet, hk]
    · simp [mapSet, mapGet, hk, ih]

theorem mem_mapDelete {α β : Type} [DecidableEq α] {m : List (α × β)} {k : α}
    {e : α × β} (h : e ∈ mapDelete m k) : e ∈ m := by
  induction m with
  | nil => simp [mapDelete] at h
  | cons e0 rest ih =>
    obtain ⟨k0, v0⟩ := e0
    by_cases hk : k0 = k
    · simp [mapDelete, hk] at h
      exact List.mem_cons_of_mem _ h
    · simp [mapDelete, hk] at h
      rcases h with h | h
      · exact List.mem_cons.mpr (Or.inl h)
      · exact List.mem_cons_of_mem _ (ih h)

theorem mapGet_eq_none_of_not_mem {α β : Type} [DecidableEq α]
    {m : List (α × β)} {k : α} (h : k ∉ m.map Prod.fst) : mapGet m k = none := by
  induction m with
  | nil => simp [mapGet]
  | cons e rest ih =>
    obtain ⟨k0, v0⟩ := e
    simp only [List.map_cons, List.mem_cons, not_or] at h
    have hne : ¬k0 = k := fun he => h.1 he.symm
    simp [mapGet, hne, ih h.2]

theorem mapGet_mapDelete_self {α β : Type} [DecidableEq α] {m : List (α × β)}
    {k : α} (hnd : (m.map Prod.fst).Nodup) : mapGet (mapDelete m k) k = none := by
  induction m with
  | nil => simp [mapDelete, mapGet]
  | cons e rest ih =>
    obtain ⟨k0, v0⟩ := e
    simp at hnd
    by_cases hk : k0 = k
    · subst hk
      simp [mapDelete]
      exact mapGet_eq_none_of_not_mem (by simpa using hnd.1)
    · simp [mapDelete, hk, mapGet, ih hnd.2]

theorem keys_mapSet_of_get {α β : Type} [DecidableEq α] {m : List (α × β)}
    {k : α} {c : β} (h : mapGet m k = some c) (v : β) :
    (mapSet m k v).map Prod.fst = m.map Prod.fst := by
  induction m with
  | nil => simp [mapGet] at h
  | cons e rest ih =>
    obtain ⟨k0, v0⟩ := e
    by_cases hk : k0 = k
    · simp [mapSet, hk]
    · simp [mapGet, hk] at h
      simp [mapSet, hk, ih h]

theorem mapSet_eq_append {α β : Type} [DecidableEq α] {m : List (α × β)}
    {k : α} (h : k ∉ m.map Prod.fst) (v : β) : mapSet m k v = m ++ [(k, v)] := by
  induction m with
  | nil => simp [mapSet]
  | cons e rest ih =>
    obtain ⟨k0, v0⟩ := e
    simp only [List.map_cons, List.mem_cons, not_or] at h
    have hne : ¬k0 = k := fun he => h.1 he.symm
    simp [mapSet, hne, ih h.2]

theorem foldl_mapSet_eq {α β : Type} [DecidableEq α] (l : List (α × β))
    (acc : List (α × β)) (hd : ∀ k ∈ l.map Prod.fst, k ∉ acc.map Prod.fst)
    (hnd : (l.map Prod.fst).Nodup) :
    l.foldl (fun m e => mapSet m e.1 e.2) acc = acc ++ l := by
  induction l generalizing acc with
  | nil => simp
  | cons e rest ih =>
    obtain ⟨k, v⟩ := e
    simp only [List.map_cons, List.nodup_cons] at hnd
    have hk : k ∉ acc.map Prod.fst := hd k (by simp)
    have step : mapSet acc k v = acc ++ [(k, v)] := mapSet_eq_append hk v
    have hd2 : ∀ k2 ∈ rest.map Prod.fst, k2 ∉ (acc ++ [(k, v)]).map Prod.fst := by
      intro k2 hk2
      simp only [List.map_append, List.map_cons, List.map_nil, List.mem_append,
        List.mem_singleton, not_or]
      constructor
      · exact hd k2 (by simp [hk2])
      · intro he
        exact hnd.1 (he ▸ hk2)
    calc (List.foldl (fun m e => mapSet m e.1 e.2) acc ((k, v) :: rest))
        = List.foldl (fun m e => mapSet m e.1 e.2) (acc ++ [(k, v)]) rest := by
          simp [step]
      _ = (acc ++ [(k, v)]) ++ rest := ih (acc ++ [(k, v)]) hd2 hnd.2
      _ = acc ++ (k, v) :: rest := by simp

theorem newMap_valid {α β : Type} [DecidableEq α] {l : List (α × β)}
    (hnd : (l.map Prod.fst).Nodup) : newMap (MapInit.valid l) = Except.ok l := by
  simp [newMap, foldl_mapSet_eq l [] (by simp) hnd]

/-! ### The `getBalance` fold as the two filtered sums -/

theorem getBalance_foldl (l : List Channel) (a b : Int) :
    l.foldl
      (fun acc channel =>
        if channel.state = ChannelState.Open then
          (acc.1 + channel.localBalanceMsat,
           if channel.isUsable then
             acc.2 + Int.fdiv (channel.localBalanceMsat * 99) 100
           else acc.2)
        else acc)
      (a, b) = (a + openLocalMsat l, b + openUsableSpendableMsat l) := by
  induction l generalizing a b with
  | nil => simp [openLocalMsat, openUsableSpendableMsat]
  | cons c rest ih =>
    by_cases hs : c.state = ChannelState.Open
    · cases hu : c.isUsable
      · simp only [List.foldl_cons, hs, if_true, hu, if_false, Bool.false_eq_true]
        rw [ih]
        simp [openLocalMsat, openUsableSpendableMsat, List.filter_cons, hs, hu]
        ring
      · simp only [List.foldl_cons, hs, if_true, hu]
        rw [ih]
        simp [openLocalMsat, openUsableSpendableMsat, List.filter_cons, hs, hu]
        constructor
        · ring
        · ring
    · simp only [List.foldl_cons, hs, if_false]
      rw [ih]
      simp [openLocalMsat, openUsableSpendableMsat, List.filter_cons, hs]

theorem getBalance_eq (s : LedgerState) :
    getBalance s =
      (openLocalMsat (getChannelStatus s),
       openUsableSpendableMsat (getChannelStatus s)) := by
  have h := getBalance_foldl (mapValues s.channels) 0 0
  simpa [getBalance, getChannelStatus] using h

/-! ### Preservation of the channel-balance invariant -/

theorem balancedChannels_iff (s : LedgerState) :
    BalancedChannels s ↔
      ∀ e ∈ s.channels,
        e.2.localBalanceMsat + e.2.remoteBalanceMsat = e.2.capacityMsat := by
  constructor
  · intro h e he
    exact h e.2 (List.mem_map.mpr ⟨e, he, rfl⟩)
  · intro h c hc
    rcases List.mem_map.mp hc with ⟨e, he, hec⟩
    exact hec ▸ h e he

theorem balanced_applyOp (op : Op) (s : LedgerState) (hs : BalancedChannels s) :
    BalancedChannels (applyOp op s) := by
  cases op with
  | create ids rp cap push =>
    rw [balancedChannels_iff]
    intro e he
    simp only [applyOp, createChannel] at he
    rcases mem_mapSet he with h1 | h1
    · exact (balancedChannels_iff s).mp hs e h1
    · subst h1
      simp
  | close cid =>
    rw [balancedChannels_iff]
    intro e he
    simp only [applyOp, closeChannel] at he
    cases hget : mapGet s.channels cid with
    | none =>
      rw [hget] at he
      exact (balancedChannels_iff s).mp hs e he
    | some channel =>
      rw [hget] at he
      simp only at he
      rcases mem_mapSet he with h1 | h1
      · exact (balancedChannels_iff s).mp hs e h1
      · subst h1
        have := (balancedChannels_iff s).mp hs (cid, channel) (mapGet_mem hget)
        simpa using this
  | closeComplete cid =>
    rw [balancedChannels_iff]
    intro e he
    simp only [applyOp, closeChannelComplete] at he
    exact (balancedChannels_iff s).mp hs e (mem_mapDelete he)
  | pay dec pre now inv =>
    rw [balancedChannels_iff]
    intro e he
    simp only [applyOp, payInvoice] at he
    cases hdec : dec inv with
    | error msg =>
      rw [hdec] at he
      exact (balancedChannels_iff s).mp hs e he
    | ok d =>
      rw [hdec] at he
      exact (balancedChannels_iff s).mp hs e he

theorem balanced_applyOps (ops : List Op) (s : LedgerState)
    (hs : BalancedChannels s) : BalancedChannels (applyOps ops s) := by
  induction ops generalizing s with
  | nil => simpa [applyOps] using hs
  | cons op rest ih =>
    simp only [applyOps, List.foldl_cons]
    exact ih (applyOp op s) (balanced_applyOp op s hs)

/-! ### Claim theorems -/

/-- C1: a channel created by `createChannel` with `0 ≤ pushMsat ≤
capacityMsat` starts with `localBalanceMsat = capacityMsat - pushMsat`,
`remoteBalanceMsat = pushMsat`, state `Open` and `isUsable = true`, satisfies
`local + remote == capacity`, is registered under its id, and the balance
equation holds for every registered channel after any sequence of ledger
operations (it can only stop holding by the channel's removal). -/
theorem createChannel_balance_invariant (ids : ChannelIds) (rp : String)
    (cap push : Int) (s : LedgerState) (ops : List Op) (h0 : 0 ≤ push)
    (h1 : push ≤ cap) (hs : BalancedChannels s) :
    (createChannel ids rp cap push s).1.localBalanceMsat = cap - push ∧
    (createChannel ids rp cap push s).1.remoteBalanceMsat = push ∧
    (createChannel ids rp cap push s).1.state = ChannelState.Open ∧
    (createChannel ids rp cap push s).1.isUsable = true ∧
    (createChannel ids rp cap push s).1.localBalanceMsat +
        (createChannel ids rp cap push s).1.remoteBalanceMsat =
      (createChannel ids rp cap push s).1.capacityMsat ∧
    mapGet (createChannel ids rp cap push s).2.channels ids.channelId =
      some (createChannel ids rp cap push s).1 ∧
    BalancedChannels (createChannel ids rp cap push s).2 ∧
    BalancedChannels (applyOps ops (createChannel ids rp cap push s).2) := by
  have hbal : BalancedChannels (createChannel ids rp cap push s).2 :=
    balanced_applyOp (Op.create ids rp cap push) s hs
  refine ⟨rfl, rfl, rfl, rfl, by simp [createChannel], ?_, hbal,
    balanced_applyOps ops _ hbal⟩
  exact mapGet_mapSet_self _ _ _

theorem createChannel_balance_invariant_witness :
    (0:Int) ≤ 100000 ∧ (100000:Int) ≤ 1000000 ∧
    BalancedChannels (initialState "02abc") ∧
    ((createChannel exIds "02peer" 1000000 100000
        (initialState "02abc")).1.localBalanceMsat = 1000000 - 100000 ∧
     (createChannel exIds "02peer" 1000000 100000
        (initialState "02abc")).1.remoteBalanceMsat = 100000 ∧
     (createChannel exIds "02peer" 1000000 100000
        (initialState "02abc")).1.state = ChannelState.Open ∧
     (createChannel exIds "02peer" 1000000 100000
        (initialState "02abc")).1.isUsable = true ∧
     (createChannel exIds "02peer" 1000000 100000
        (initialState "02abc")).1.localBalanceMsat +
         (createChannel exIds "02peer" 1000000 100000
            (initialState "02abc")).1.remoteBalanceMsat =
       (createChannel exIds "02peer" 1000000 100000
          (initialState "02abc")).1.capacityMsat ∧
     mapGet (createChannel exIds "02peer" 1000000 100000
        (initialState "02abc")).2.channels exIds.channelId =
       some (createChannel exIds "02peer" 1000000 100000
          (initialState "02abc")).1 ∧
     BalancedChannels (createChannel exIds "02peer" 1000000 100000
        (initialState "02abc")).2 ∧
     BalancedChannels (applyOps [Op.close "aa11", Op.closeComplete "aa11"]
        (createChannel exIds "02peer" 1000000 100000
          (initialState "02abc")).2)) := by
  have hs : BalancedChannels (initialState "02abc") := by
    rw [balancedChannels_iff]
    intro e he
    simp [initialState] at he
  exact ⟨by decide, by decide, hs,
    createChannel_balance_invariant exIds "02peer" 1000000 100000
      (initialState "02abc") [Op.close "aa11", Op.closeComplete "aa11"]
      (by decide) (by decide) hs⟩

/-- C2: when decoding succeeds, `payInvoice` returns a `Succeeded` payment
whose fee is `Math.floor(amount * 0.001)`, whose preimage is the freshly
generated random value, and whose hash is the decoded invoice's own
`payment_hash` tag; the payment is stored in the registry keyed by that hash
and the rest of the state is untouched. -/
theorem payInvoice_success_payment (decode : String → Except String DecodedInvoice)
    (freshPreimage : String) (now : Int) (inv : String) (s : LedgerState)
    (d : DecodedInvoice) (h : decode inv = Except.ok d) :
    ∃ p : Payment,
      (payInvoice decode freshPreimage now inv s).1 = Except.ok p ∧
      p.feeMsat = some (Int.fdiv (d.millisatoshis.getD 0) 1000) ∧
      p.paymentPreimage = some freshPreimage ∧
      p.paymentHash = d.paymentHash ∧
      p.status = PaymentStatus.Succeeded ∧
      p.amountMsat = d.millisatoshis.getD 0 ∧
      mapGet (payInvoice decode freshPreimage now inv s).2.payments
        d.paymentHash = some p ∧
      (payInvoice decode freshPreimage now inv s).2.channels = s.channels ∧
      (payInvoice decode freshPreimage now inv s).2.nodeInfo = s.nodeInfo := by
  unfold payInvoice
  rw [h]
  exact ⟨_, rfl, by simp [mul_one], rfl, rfl, rfl, rfl,
    mapGet_mapSet_self _ _ _, rfl, rfl⟩

theorem payInvoice_success_payment_witness :
    ∃ p : Payment,
      (payInvoice exDecodeOk "fresh" 99 "lnbc1xyz" exState3).1 = Except.ok p ∧
      p.feeMsat = some (Int.fdiv (exDecoded.millisatoshis.getD 0) 1000) ∧
      p.paymentPreimage = some "fresh" ∧
      p.paymentHash = exDecoded.paymentHash ∧
      p.status = PaymentStatus.Succeeded ∧
      p.amountMsat = exDecoded.millisatoshis.getD 0 ∧
      mapGet (payInvoice exDecodeOk "fresh" 99 "lnbc1xyz" exState3).2.payments
        exDecoded.paymentHash = some p ∧
      (payInvoice exDecodeOk "fresh" 99 "lnbc1xyz" exState3).2.channels =
        exState3.channels ∧
      (payInvoice exDecodeOk "fresh" 99 "lnbc1xyz" exState3).2.nodeInfo =
        exState3.nodeInfo :=
  payInvoice_success_payment exDecodeOk "fresh" 99 "lnbc1xyz" exState3
    exDecoded rfl

/-- C6: when decoding fails, `payInvoice` rethrows
`Failed to pay invoice: ...` with the underlying reason and leaves the whole
state — in particular the payments registry — unchanged. -/
theorem payInvoice_decode_error (decode : String → Except String DecodedInvoice)
    (freshPreimage : String) (now : Int) (inv : String) (s : LedgerState)
    (e : String) (h : decode inv = Except.error e) :
    payInvoice decode freshPreimage now inv s =
      (Except.error ("Failed to pay invoice: " ++ e), s) := by
  simp only [payInvoice, h]

theorem payInvoice_decode_error_witness :
    payInvoice exDecodeErr "fresh" 99 "not-an-invoice" exState3 =
      (Except.error ("Failed to pay invoice: " ++ "Invalid checksum"),
       exState3) :=
  payInvoice_decode_error exDecodeErr "fresh" 99 "not-an-invoice" exState3
    "Invalid checksum" rfl

/-- C3: `backupState` serializes the node identity, all channel entries, all
payment entries and a timestamp, and `restoreState` of that blob fully
replaces the ledger with the decoded content, so restoring a backup of `s`
into any ledger yields exactly `s`: the `ListChannels` and `ListPayments`
reads coincide with the pre-backup ones.  The `Nodup` hypotheses record that
JavaScript `Map` keys are unique. -/
theorem backupState_restoreState_roundtrip (s t : LedgerState) (now : Int)
    (hc : (s.channels.map Prod.fst).Nodup)
    (hp : (s.payments.map Prod.fst).Nodup) :
    backupState now s =
      { nodeInfo := s.nodeInfo
        channels := MapInit.valid s.channels
        payments := MapInit.valid s.payments
        timestamp := now } ∧
    restoreState (Except.ok (backupState now s)) t = (Except.ok true, s) ∧
    getChannelStatus (restoreState (Except.ok (backupState now s)) t).2 =
      getChannelStatus s ∧
    listPayments (restoreState (Except.ok (backupState now s)) t).2 =
      listPayments s := by
  have h1 : newMap (MapInit.valid s.channels) = Except.ok s.channels :=
    newMap_valid hc
  have h2 : newMap (MapInit.valid s.payments) = Except.ok s.payments :=
    newMap_valid hp
  have hmain : restoreState (Except.ok (backupState now s)) t =
      (Except.ok true, s) := by
    simp only [restoreState, backupState, h1, h2]
  exact ⟨rfl, hmain, by rw [hmain], by rw [hmain]⟩

theorem backupState_restoreState_roundtrip_witness :
    (exState3.channels.map Prod.fst).Nodup ∧
    (exState3.payments.map Prod.fst).Nodup ∧
    (backupState 123 exState3 =
      { nodeInfo := exState3.nodeInfo
        channels := MapInit.valid exState3.channels
        payments := MapInit.valid exState3.payments
        timestamp := 123 } ∧
     restoreState (Except.ok (backupState 123 exState3))
        (initialState "02other") = (Except.ok true, exState3) ∧
     getChannelStatus (restoreState (Except.ok (backupState 123 exState3))
        (initialState "02other")).2 = getChannelStatus exState3 ∧
     listPayments (restoreState (Except.ok (backupState 123 exState3))
        (initialState "02other")).2 = listPayments exState3) :=
  ⟨by decide, by decide,
    backupState_restoreState_roundtrip exState3 (initialState "02other") 123
      (by decide) (by decide)⟩

/-- C4 counterexample: the claim computes `spendableMsat` over every usable
channel, but `getBalance` only counts channels that are both `Open` and
usable.  On a ledger holding a `Closing` channel still marked usable (such
states are installable through the unvalidated `restoreState`), the code
returns 0 while the claim's formula returns `floor(100 * 0.99) = 99`. -/
theorem getBalance_spendable_counterexample :
    (getBalance exState4).2 ≠ usableSpendableSpecMsat (getChannelStatus exState4) := by
  decide

/-- C4 (amended): `getBalance` returns `totalMsat` as the sum of local
balances over channels in `Open` state and `spendableMsat` as the sum of
`Math.floor(local * 0.99)` over channels that are `Open` and usable; after
creating a single channel with capacity 1,000,000 msat and push 100,000 msat
it returns `totalMsat = 900000` and `spendableMsat = 891000`. -/
theorem getBalance_sums :
    (∀ s : LedgerState,
      getBalance s =
        (openLocalMsat (getChannelStatus s),
         openUsableSpendableMsat (getChannelStatus s))) ∧
    getBalance (createChannel exIds "02peer" 1000000 100000
        (initialState "02abc")).2 = (900000, 891000) :=
  ⟨getBalance_eq, by decide⟩

/-- C5: `closeChannel` fails with `Channel not found` exactly when the id is
absent, leaving the state unchanged; on a present channel it returns `ok
true`, re-registers the channel as `Closing` and unusable, decrements only
the usable counter, and the scheduled completion step then removes the
channel from the registry and decrements the total counter. -/
theorem closeChannel_spec (cid : String) (s : LedgerState)
    (hnd : (s.channels.map Prod.fst).Nodup) :
    (mapGet s.channels cid = none →
      closeChannel cid s = (Except.error "Channel not found", s)) ∧
    (∀ c, mapGet s.channels cid = some c →
      (closeChannel cid s).1 = Except.ok true ∧
      mapGet (closeChannel cid s).2.channels cid =
        some { c with state := ChannelState.Closing, isUsable := false } ∧
      (closeChannel cid s).2.nodeInfo.numUsableChannels =
        s.nodeInfo.numUsableChannels - 1 ∧
      (closeChannel cid s).2.nodeInfo.numChannels = s.nodeInfo.numChannels ∧
      (closeChannel cid s).2.payments = s.payments ∧
      mapGet (closeChannelComplete cid (closeChannel cid s).2).channels cid =
        none ∧
      (closeChannelComplete cid (closeChannel cid s).2).nodeInfo.numChannels =
        s.nodeInfo.numChannels - 1 ∧
      (closeChannelComplete cid
          (closeChannel cid s).2).nodeInfo.numUsableChannels =
        s.nodeInfo.numUsableChannels - 1) := by
  constructor
  · intro h
    unfold closeChannel
    rw [h]
  · intro c h
    unfold closeChannel closeChannelComplete
    rw [h]
    have hkeys := keys_mapSet_of_get h
      ({ c with state := ChannelState.Closing, isUsable := false })
    refine ⟨rfl, mapGet_mapSet_self _ _ _, rfl, rfl, rfl, ?_, rfl, rfl⟩
    exact mapGet_mapDelete_self (by rw [hkeys]; exact hnd)

theorem closeChannel_spec_witness :
    (exState3.channels.map Prod.fst).Nodup ∧
    mapGet exState3.channels "zz" = none ∧
    closeChannel "zz" exState3 = (Except.error "Channel not found", exState3) ∧
    mapGet exState3.channels "aa11" = some exChannel ∧
    (closeChannel "aa11" exState3).1 = Except.ok true ∧
    mapGet (closeChannel "aa11" exState3).2.channels "aa11" =
      some { exChannel with state := ChannelState.Closing, isUsable := false } ∧
    (closeChannel "aa11" exState3).2.nodeInfo.numUsableChannels =
      exState3.nodeInfo.numUsableChannels - 1 ∧
    mapGet (closeChannelComplete "aa11"
        (closeChannel "aa11" exState3).2).channels "aa11" = none ∧
    (closeChannelComplete "aa11"
        (closeChannel "aa11" exState3).2).nodeInfo.numChannels =
      exState3.nodeInfo.numChannels - 1 := by
  have h1 := closeChannel_spec "zz" exState3 (by decide)
  have h2 := closeChannel_spec "aa11" exState3 (by decide)
  have h2some := h2.2 exChannel (by decide)
  exact ⟨by decide, by decide, h1.1 (by decide), by decide, h2some.1,
    h2some.2.1, h2some.2.2.1, h2some.2.2.2.2.2.1, h2some.2.2.2.2.2.2.1⟩

/-- C7: `estimateFee` is deterministic: base fee 1000 msat, proportional
rate 1000 ppm, `estimatedFeeMsat = 1000 + floor(amountMsat * 1000 /
1000000)`, duration 60 seconds; in particular `estimateFee 1000000` yields
an estimated fee of 2000 msat. -/
theorem estimateFee_formula :
    (∀ amountMsat : Int,
      estimateFee amountMsat =
        { baseFee := 1000
          proportionalMillionths := 1000
          estimatedFeeMsat := 1000 + Int.fdiv (amountMsat * 1000) 1000000
          estimatedDurationSeconds := 60 }) ∧
    (estimateFee 1000000).estimatedFeeMsat = 2000 := by
  constructor
  · intro amountMsat
    rfl
  · decide

/-- C8: `listPayments` returns exactly the payments stored in the registry
(a permutation of the registry's values) in timestamp-descending order. -/
theorem listPayments_sorted_desc (s : LedgerState) :
    (listPayments s).Perm (mapValues s.payments) ∧
    List.Sorted (fun a b : Payment => b.timestamp ≤ a.timestamp)
      (listPayments s) := by
  constructor
  · exact List.mergeSort_perm _ _
  · have h := @List.sorted_mergeSort Payment
      (fun a b => decide (b.timestamp ≤ a.timestamp))
      (fun a b c h1 h2 => by
        simp only [decide_eq_true_eq] at h1 h2 ⊢
        exact le_trans h2 h1)
      (fun a b => by
        simp only [Bool.or_eq_true, decide_eq_true_eq]
        exact le_total b.timestamp a.timestamp)
      (mapValues s.payments)
    exact List.Pairwise.imp (fun hab => of_decide_eq_true hab) h

/-- C9: while a close completion is still pending, a second `closeChannel`
on the same id finds the channel still registered (in `Closing` state), so
it succeeds again instead of failing with `Channel not found`, and it
decrements `numUsableChannels` a second time, leaving the counter two below
its value before the first call. -/
theorem closeChannel_double_decrement (cid : String) (s : LedgerState)
    (c : Channel) (h : mapGet s.channels cid = some c) :
    (closeChannel cid s).1 = Except.ok true ∧
    (closeChannel cid (closeChannel cid s).2).1 = Except.ok true ∧
    (closeChannel cid (closeChannel cid s).2).2.nodeInfo.numUsableChannels =
      s.nodeInfo.numUsableChannels - 2 := by
  have key : ∀ (t : LedgerState) (c2 : Channel),
      mapGet t.channels cid = some c2 →
      (closeChannel cid t).1 = Except.ok true ∧
      (closeChannel cid t).2.nodeInfo.numUsableChannels =
        t.nodeInfo.numUsableChannels - 1 := by
    intro t c2 ht
    unfold closeChannel
    rw [ht]
    exact ⟨rfl, rfl⟩
  have h2 : mapGet (closeChannel cid s).2.channels cid =
      some { c with state := ChannelState.Closing, isUsable := false } := by
    unfold closeChannel
    rw [h]
    exact mapGet_mapSet_self _ _ _
  refine ⟨(key s c h).1, (key _ _ h2).1, ?_⟩
  rw [(key _ _ h2).2, (key s c h).2]
  ring

theorem closeChannel_double_decrement_witness :
    mapGet exState9.channels "aa11" = some exChannel ∧
    (closeChannel "aa11" exState9).1 = Except.ok true ∧
    (closeChannel "aa11" (closeChannel "aa11" exState9).2).1 = Except.ok true ∧
    (closeChannel "aa11"
        (closeChannel "aa11" exState9).2).2.nodeInfo.numUsableChannels =
      exState9.nodeInfo.numUsableChannels - 2 ∧
    (closeChannel "aa11"
        (closeChannel "aa11" exState9).2).2.nodeInfo.numUsableChannels < 0 := by
  have h := closeChannel_double_decrement "aa11" exState9 exChannel (by decide)
  refine ⟨by decide, h.1, h.2.1, h.2.2, ?_⟩
  rw [h.2.2]
  decide

/-- C10: `restoreState` is not atomic on failure: on a blob whose base64 and
JSON decoding succeed but whose `channels` entry is not iterable, the call
throws after `nodeInfo` has already been overwritten, leaving a state that
differs from the original in its node identity while channels and payments
are untouched. -/
theorem restoreState_partial_overwrite :
    restoreState blob10 st10 =
      (Except.error ("Failed to restore state: " ++
        "TypeError: object is not iterable"),
       { st10 with nodeInfo := ni10 }) ∧
    ({ st10 with nodeInfo := ni10 } : LedgerState) ≠ st10 ∧
    ({ st10 with nodeInfo := ni10 } : LedgerState).channels = st10.channels ∧
    ({ st10 with nodeInfo := ni10 } : LedgerState).payments = st10.payments := by
  refine ⟨rfl, ?_, rfl, rfl⟩
  decide

end LdkMcp
